import Mathlib

/-!
Shallow embedding of the spi-memory SPI flash driver library
(series25.rs, utils.rs, w25m.rs of the spi-memory repository).

The SPI transport and the chip-select pin are modelled as oracles: an
environment fixes, for each successive SPI transfer, whether it succeeds
and which bytes come back, and, for each successive chip-select pin
operation, whether it succeeds.  Every driver operation threads a pair of
counters (how many transfers and how many pin operations happened so far)
and returns the list of wire events it emitted together with its outcome.
Rust panics (numeric conversion failures, out-of-bounds indexing) are a
distinguished outcome, and the unbounded busy-polling loop takes a fuel
argument whose exhaustion is a further distinguished outcome.
-/

namespace SpiMem

/-- Wire events emitted by the driver: chip-select edges (recording whether
the pin operation succeeded) and in-place SPI transfers (recording the frame
sent, and the response bytes, or `none` when the transfer failed). -/
inductive Ev where
  | csLow (ok : Bool)
  | csHigh (ok : Bool)
  | xfer (frame : List Nat) (resp : Option (List Nat))
deriving DecidableEq, Repr

/-- Error kind of the `Error` enum of the library, keeping the constructor
tags and dropping the opaque payloads. -/
inductive SErr where
  | Spi
  | Gpio
  | UnexpectedStatus
deriving DecidableEq, Repr

/-- Outcome of an embedded operation: a value, a library error, a Rust
panic, or exhaustion of the fuel bounding the busy-poll loop. -/
inductive Outcome (α : Type) where
  | ok (a : α)
  | err (e : SErr)
  | panicked
  | fuelOut
deriving DecidableEq, Repr

/-- Oracle environment: `spiResp n` is the response to the n-th SPI transfer
(`none` meaning the transfer fails), `csOk n` tells whether the n-th
chip-select pin operation succeeds. -/
structure Env where
  spiResp : Nat → Option (List Nat)
  csOk : Nat → Bool

/-- Progress counters: number of SPI transfers and of chip-select pin
operations performed so far. -/
structure Cnt where
  spiN : Nat
  csN : Nat
deriving DecidableEq, Repr

/-- Sequencing of embedded operations: on success run the continuation and
concatenate the emitted events, otherwise propagate the outcome (this is the
question-mark operator of the Rust source). -/
def obind {α β : Type} (r : Cnt × List Ev × Outcome α)
    (f : α → Cnt → Cnt × List Ev × Outcome β) : Cnt × List Ev × Outcome β :=
  match r with
  | (k, t, Outcome.ok a) =>
    let (k2, t2, o) := f a k
    (k2, t ++ t2, o)
  | (k, t, Outcome.err e) => (k, t, Outcome.err e)
  | (k, t, Outcome.panicked) => (k, t, Outcome.panicked)
  | (k, t, Outcome.fuelOut) => (k, t, Outcome.fuelOut)

/-- Coercion of an outcome to another value type along error paths. -/
def Outcome.toUnit {α : Type} : Outcome α → Outcome Unit
  | Outcome.ok _ => Outcome.ok ()
  | Outcome.err e => Outcome.err e
  | Outcome.panicked => Outcome.panicked
  | Outcome.fuelOut => Outcome.fuelOut

/-- Embedding of `cs.set_low().map_err(Error::Gpio)`. -/
def setLow (env : Env) (k : Cnt) : Cnt × List Ev × Outcome Unit :=
  let ok := env.csOk k.csN
  (⟨k.spiN, k.csN + 1⟩, [Ev.csLow ok],
    if ok then Outcome.ok () else Outcome.err SErr.Gpio)

/-- Embedding of `cs.set_high().map_err(Error::Gpio)`. -/
def setHigh (env : Env) (k : Cnt) : Cnt × List Ev × Outcome Unit :=
  let ok := env.csOk k.csN
  (⟨k.spiN, k.csN + 1⟩, [Ev.csHigh ok],
    if ok then Outcome.ok () else Outcome.err SErr.Gpio)

/-- Embedding of `spi.transfer(frame).map_err(Error::Spi)`: an in-place
full-duplex exchange; the response bytes replace the frame on success. -/
def transfer (env : Env) (frame : List Nat) (k : Cnt) :
    Cnt × List Ev × Outcome (List Nat) :=
  let r := env.spiResp k.spiN
  (⟨k.spiN + 1, k.csN⟩, [Ev.xfer frame r],
    match r with
    | some resp => Outcome.ok resp
    | none => Outcome.err SErr.Spi)

/-- Embedding of `utils::spi_command`: chip-select low, transfer, chip-select
high (attempted even after a failed transfer), then the question-mark on the
chip-select result followed by the question-mark on the transfer result. -/
def spi_command (env : Env) (frame : List Nat) (k : Cnt) :
    Cnt × List Ev × Outcome (List Nat) :=
  obind (setLow env k) fun _ k1 =>
    let (k2, t2, r) := transfer env frame k1
    let (k3, t3, h) := setHigh env k2
    (k3, t2 ++ t3,
      match h with
      | Outcome.ok _ => r
      | Outcome.err e => Outcome.err e
      | Outcome.panicked => Outcome.panicked
      | Outcome.fuelOut => Outcome.fuelOut)

/-- Embedding of `Flash::command` of series25.rs; its body is identical to
`utils::spi_command`. -/
def Flash.command (env : Env) (frame : List Nat) (k : Cnt) :
    Cnt × List Ev × Outcome (List Nat) :=
  spi_command env frame k

/-- Command frame of opcode plus big-endian 24-bit address, with the `as u8`
truncations of the Rust source. -/
def addrCmd (op cur : Nat) : List Nat :=
  [op, (cur >>> 16) % 256, (cur >>> 8) % 256, cur % 256]

/-- Embedding of `Flash::read_status`: sends `[0x05, 0x00]` and filters the
second response byte through `Status::from_bits_truncate` (mask 0x9F of the
defined status bits). -/
def Flash.read_status (env : Env) (k : Cnt) : Cnt × List Ev × Outcome Nat :=
  obind (Flash.command env [0x05, 0x00] k) fun r k1 =>
    (k1, [], Outcome.ok ((r.getD 1 0) &&& 0x9F))

/-- Embedding of `Flash::init`: read the status register once and fail with
`UnexpectedStatus` when BUSY (bit 0) or WEL (bit 1) is set. -/
def Flash.init (env : Env) (k : Cnt) : Cnt × List Ev × Outcome Unit :=
  obind (Flash.read_status env k) fun st k1 =>
    if st &&& 0x03 ≠ 0 then (k1, [], Outcome.err SErr.UnexpectedStatus)
    else (k1, [], Outcome.ok ())

/-- Embedding of `Flash::write_enable`: a single-byte `[0x06]` command. -/
def Flash.write_enable (env : Env) (k : Cnt) : Cnt × List Ev × Outcome Unit :=
  obind (Flash.command env [0x06] k) fun _ k1 => (k1, [], Outcome.ok ())

/-- Embedding of `Flash::wait_done`: poll the status register while the BUSY
bit is set.  The Rust loop is unbounded; fuel exhaustion is reported as the
`fuelOut` outcome. -/
def Flash.wait_done (env : Env) : Nat → Cnt → Cnt × List Ev × Outcome Unit
  | 0, k => (k, [], Outcome.fuelOut)
  | n + 1, k =>
    obind (Flash.read_status env k) fun st k1 =>
      if st &&& 0x01 = 1 then Flash.wait_done env n k1
      else (k1, [], Outcome.ok ())

/-- Embedding of `Flash::read`: one chip-select bracket containing the
`[0x03, hi, mid, lo]` header transfer and, only when the header transfer
succeeded, the in-place transfer of the destination buffer; the chip-select
release is attempted on both paths, and its question-mark runs before the
transfer result is consulted. -/
def Flash.read (env : Env) (addr : Nat) (buf : List Nat) (k : Cnt) :
    Cnt × List Ev × Outcome Unit :=
  obind (setLow env k) fun _ k1 =>
    let (k2, t2, r1) := transfer env (addrCmd 0x03 addr) k1
    let (k3, t3, r2) :=
      match r1 with
      | Outcome.ok _ =>
        let (ka, ta, ra) := transfer env buf k2
        (ka, t2 ++ ta, ra)
      | o => (k2, t2, o)
    let (k4, t4, h) := setHigh env k3
    (k4, t3 ++ t4,
      match h with
      | Outcome.ok _ => r2.toUnit
      | Outcome.err e => Outcome.err e
      | Outcome.panicked => Outcome.panicked
      | Outcome.fuelOut => Outcome.fuelOut)

/-- Chip-select bracket of one page-program iteration of
`Flash::write_bytes`: header `[0x02, hi, mid, lo]` then the chunk, the
chip-select release attempted unconditionally. -/
def Flash.prog_bracket (env : Env) (cur : Nat) (chunk : List Nat) (k : Cnt) :
    Cnt × List Ev × Outcome Unit :=
  obind (setLow env k) fun _ k1 =>
    let (k2, t2, r1) := transfer env (addrCmd 0x02 cur) k1
    let (k3, t3, r2) :=
      match r1 with
      | Outcome.ok _ =>
        let (ka, ta, ra) := transfer env chunk k2
        (ka, t2 ++ ta, ra)
      | o => (k2, t2, o)
    let (k4, t4, h) := setHigh env k3
    (k4, t3 ++ t4,
      match h with
      | Outcome.ok _ => r2.toUnit
      | Outcome.err e => Outcome.err e
      | Outcome.panicked => Outcome.panicked
      | Outcome.fuelOut => Outcome.fuelOut)

/-- Loop of `Flash::write_bytes` over the chunks of the data, indexed by the
remaining chunk count; chunk `c` is `data[c*256 .. c*256+256]` as produced by
`chunks_mut(256)`.  Each iteration is write-enable, the `current_addr`
computation whose `try_into().unwrap()` panics at or above 2^32, the
page-program bracket, then the busy wait. -/
def Flash.write_bytes_go (env : Env) (fuel addr : Nat) (data : List Nat) :
    Nat → Nat → Cnt → Cnt × List Ev × Outcome Unit
  | 0, _, k => (k, [], Outcome.ok ())
  | n + 1, c, k =>
    match obind (Flash.write_enable env k) fun _ k1 =>
        if addr + c * 256 < 4294967296 then
          obind
            (Flash.prog_bracket env (addr + c * 256)
              ((data.drop (c * 256)).take 256) k1)
            fun _ k2 => Flash.wait_done env fuel k2
        else (k1, [], Outcome.panicked) with
    | (k9, t9, Outcome.ok _) =>
      let (k10, t10, o) := Flash.write_bytes_go env fuel addr data n (c + 1) k9
      (k10, t9 ++ t10, o)
    | r => r

/-- Embedding of `Flash::write_bytes`: `chunks_mut(256)` yields
`⌈data.len()/256⌉` chunks, iterated from chunk index 0. -/
def Flash.write_bytes (env : Env) (fuel addr : Nat) (data : List Nat) (k : Cnt) :
    Cnt × List Ev × Outcome Unit :=
  Flash.write_bytes_go env fuel addr data ((data.length + 255) / 256) 0 k

/-- One iteration of `Flash::erase_sectors`: write-enable, the
`current_addr` computation (panicking at or above 2^32), the
`[0x20, hi, mid, lo]` command, then the busy wait. -/
def Flash.erase_step (env : Env) (fuel addr c : Nat) (k : Cnt) :
    Cnt × List Ev × Outcome Unit :=
  obind (Flash.write_enable env k) fun _ k1 =>
    if addr + c * 256 < 4294967296 then
      obind (Flash.command env (addrCmd 0x20 (addr + c * 256)) k1) fun _ k2 =>
        Flash.wait_done env fuel k2
    else (k1, [], Outcome.panicked)

/-- Loop of `Flash::erase_sectors` over the remaining iteration count. -/
def Flash.erase_sectors_go (env : Env) (fuel addr : Nat) :
    Nat → Nat → Cnt → Cnt × List Ev × Outcome Unit
  | 0, _, k => (k, [], Outcome.ok ())
  | n + 1, c, k =>
    match Flash.erase_step env fuel addr c k with
    | (k1, t1, Outcome.ok _) =>
      let (k2, t2, o) := Flash.erase_sectors_go env fuel addr n (c + 1) k1
      (k2, t1 ++ t2, o)
    | r => r

/-- Embedding of `Flash::erase_sectors`. -/
def Flash.erase_sectors (env : Env) (fuel addr count : Nat) (k : Cnt) :
    Cnt × List Ev × Outcome Unit :=
  Flash.erase_sectors_go env fuel addr count 0 k

/-- Embedding of `Flash::erase_all`: write-enable, `[0xC7]`, busy wait. -/
def Flash.erase_all (env : Env) (fuel : Nat) (k : Cnt) :
    Cnt × List Ev × Outcome Unit :=
  obind (Flash.write_enable env k) fun _ k1 =>
    obind (Flash.command env [0xC7] k1) fun _ k2 =>
      Flash.wait_done env fuel k2

/-- Parsed JEDEC identification: the three significant bytes and the stored
continuation count (a `u8` in the Rust source). -/
structure Identification where
  bytes : List Nat
  continuations : Nat
deriving DecidableEq, Repr

/-- Accessor `Identification::mfr_code`. -/
def Identification.mfr_code (i : Identification) : Nat :=
  i.bytes.headD 0

/-- Accessor `Identification::device_id`. -/
def Identification.device_id (i : Identification) : List Nat :=
  i.bytes.drop 1

/-- Accessor `Identification::continuation_count`. -/
def Identification.continuation_count (i : Identification) : Nat :=
  i.continuations

/-- Scan loop of `Identification::from_jedec_id`, indexed by the number of
remaining loop iterations: the first index whose byte is not 0x7F, and 0
when the iterations run out (the Rust `start_idx` keeps its initial value 0
when the loop finds nothing).  The call with `b` remaining iterations at
index `i` covers the Rust range `i .. i + b`. -/
def scanFrom (buf : List Nat) : Nat → Nat → Nat
  | 0, _ => 0
  | b + 1, i => if buf.getD i 0 ≠ 0x7F then i else scanFrom buf b (i + 1)

/-- Embedding of `Identification::from_jedec_id` on inputs where every
access is in bounds (length at least 3): scan up to `buf.len() - 2`, then
take three bytes from the found index; the continuation count is stored as
a `u8`, hence the modulus 256. -/
def Identification.from_jedec_id (buf : List Nat) : Identification :=
  ⟨[buf.getD (scanFrom buf (buf.length - 2) 0) 0,
    buf.getD (scanFrom buf (buf.length - 2) 0 + 1) 0,
    buf.getD (scanFrom buf (buf.length - 2) 0 + 2) 0],
    scanFrom buf (buf.length - 2) 0 % 256⟩

/-- Embedding of `Identification::from_jedec_id` with the Rust abort
behaviour made explicit: the subtraction `buf.len() - 2` underflows for
lengths 0 and 1, and every slice access is bounds-checked; `none` is a
panic of the Rust function. -/
def Identification.from_jedec_id_checked (buf : List Nat) :
    Option Identification :=
  if buf.length < 2 then none
  else
    match buf.get? (scanFrom buf (buf.length - 2) 0),
        buf.get? (scanFrom buf (buf.length - 2) 0 + 1),
        buf.get? (scanFrom buf (buf.length - 2) 0 + 2) with
    | some a, some b1, some b2 =>
      some ⟨[a, b1, b2], scanFrom buf (buf.length - 2) 0 % 256⟩
    | _, _, _ => none

/-- Active-die indicator of the stacked-die wrapper of w25m.rs, with the
`Dummy` sentinel that is only live while `switch_die` runs. -/
inductive Inner (D0 D1 : Type) where
  | die0 (d : D0)
  | die1 (d : D1)
  | dummy

/-- Stacked-die wrapper of w25m.rs.  The `spi` and `cs` option fields of the
Rust struct are `None` outside of `switch_die` and only carry the ambient
transport, which this embedding models as the oracle environment, so the
wrapper state reduces to the active inner die. -/
structure W25M (D0 D1 : Type) where
  inner : Inner D0 D1

/-- Embedding of `w25m::Flash::command`; its body is identical to the
series25 `command`. -/
def W25M.command (env : Env) (frame : List Nat) (k : Cnt) :
    Cnt × List Ev × Outcome (List Nat) :=
  spi_command env frame k

/-- Embedding of `switch_die` in the Die0 state: recover the transport pair
from the active die via `free`, issue the `[0xC2, 0x01]` die-select bracket,
then construct the Die1 driver from the recovered pair.  The die
constructor is a parameter (the `Stackable::new` of the die type) which may
itself emit wire traffic.  Observing any variant other than `Die0` is the
`unreachable!` panic of the source. -/
def W25M.switch_die0 {T C D0 D1 : Type} (free0 : D0 → T × C)
    (new1 : T → C → Env → Cnt → Cnt × List Ev × Outcome D1)
    (w : W25M D0 D1) (env : Env) (k : Cnt) :
    Cnt × List Ev × Outcome (W25M D0 D1) :=
  match w.inner with
  | Inner.die0 d =>
    let tc := free0 d
    obind (W25M.command env [0xC2, 0x01] k) fun _ k1 =>
      obind (new1 tc.1 tc.2 env k1) fun d1 k2 =>
        (k2, [], Outcome.ok ⟨Inner.die1 d1⟩)
  | _ => (k, [], Outcome.panicked)

/-- Embedding of `switch_die` in the Die1 state, symmetric to
`switch_die0` with the `[0xC2, 0x00]` die-select bracket. -/
def W25M.switch_die1 {T C D0 D1 : Type} (free1 : D1 → T × C)
    (new0 : T → C → Env → Cnt → Cnt × List Ev × Outcome D0)
    (w : W25M D0 D1) (env : Env) (k : Cnt) :
    Cnt × List Ev × Outcome (W25M D0 D1) :=
  match w.inner with
  | Inner.die1 d =>
    let tc := free1 d
    obind (W25M.command env [0xC2, 0x00] k) fun _ k1 =>
      obind (new0 tc.1 tc.2 env k1) fun d0 k2 =>
        (k2, [], Outcome.ok ⟨Inner.die0 d0⟩)
  | _ => (k, [], Outcome.panicked)

/-- Forwarding pattern of the wrapper methods `read`, `erase`, `erase_all`
and `write_bytes`: dispatch to the active inner die; observing `Dummy` is
the `unreachable!` panic. -/
def W25M.dispatch {D0 D1 α : Type}
    (op0 : D0 → Cnt → Cnt × List Ev × Outcome α)
    (op1 : D1 → Cnt → Cnt × List Ev × Outcome α)
    (w : W25M D0 D1) (k : Cnt) : Cnt × List Ev × Outcome α :=
  match w.inner with
  | Inner.die0 d => op0 d k
  | Inner.die1 d => op1 d k
  | Inner.dummy => (k, [], Outcome.panicked)

/-- Frames of the SPI transfer events of a trace. -/
def frames (t : List Ev) : List (List Nat) :=
  t.filterMap fun ev =>
    match ev with
    | Ev.xfer f _ => some f
    | _ => none

/-- Transaction-opening frames of a trace: the frame of the first transfer
after each chip-select-low edge.  Later transfers of the same bracket are
payload, not command frames. -/
def txnFrames : List Ev → List (List Nat)
  | [] => []
  | [Ev.csLow _] => []
  | Ev.csLow _ :: Ev.xfer f _ :: rest => f :: txnFrames rest
  | Ev.csLow _ :: e :: rest => txnFrames (e :: rest)
  | _ :: rest => txnFrames rest

/-- Test for a chip-select-high event. -/
def IsHigh : Ev → Bool
  | Ev.csHigh _ => true
  | _ => false

/-- Discipline check: every successful chip-select-low edge of the trace is
followed, later in the trace, by a chip-select-high attempt. -/
def allClosed : List Ev → Bool
  | [] => true
  | Ev.csLow true :: rest => rest.any IsHigh && allClosed rest
  | _ :: rest => allClosed rest

/-- Erase the oracle responses of a trace, keeping edges and frames, so that
expected traces can be written independently of the response bytes. -/
def evSig : Ev → Ev
  | Ev.xfer f _ => Ev.xfer f none
  | e => e

/-- Response-erased signature of one command bracket. -/
def bracketSig (f : List Nat) : List Ev :=
  [Ev.csLow true, Ev.xfer f none, Ev.csHigh true]

/-- Expected signature of one `erase_sectors` iteration: write-enable,
sector-erase command at the iteration address, one status poll. -/
def eraseIterSig (addr c : Nat) : List Ev :=
  bracketSig [0x06] ++ bracketSig (addrCmd 0x20 (addr + c * 256)) ++
    bracketSig [0x05, 0x00]

/-- Expected signature of the whole `erase_sectors` loop. -/
def eraseSig (addr : Nat) : Nat → Nat → List Ev
  | 0, _ => []
  | n + 1, c => eraseIterSig addr c ++ eraseSig addr n (c + 1)

/-- Expected signature of one `write_bytes` iteration: write-enable, a
single bracket streaming the page-program header then the chunk, one
status poll. -/
def pageIterSig (addr c : Nat) (chunk : List Nat) : List Ev :=
  bracketSig [0x06] ++
    [Ev.csLow true, Ev.xfer (addrCmd 0x02 (addr + c * 256)) none,
      Ev.xfer chunk none, Ev.csHigh true] ++
    bracketSig [0x05, 0x00]

/-- Expected signature of the whole `write_bytes` loop over the chunks,
indexed by the remaining chunk count. -/
def writeSig (addr : Nat) (data : List Nat) : Nat → Nat → List Ev
  | 0, _ => []
  | n + 1, c =>
    pageIterSig addr c ((data.drop (c * 256)).take 256) ++
      writeSig addr data n (c + 1)

/-- Trace property: the trace ends with a complete status-poll bracket whose
response has the BUSY bit clear (the status byte is masked by
`from_bits_truncate` before the BUSY test, exactly as in `wait_done`). -/
def endsClearPoll (t : List Ev) : Prop :=
  ∃ t0 r, t = t0 ++ [Ev.csLow true, Ev.xfer [0x05, 0x00] (some r), Ev.csHigh true]
    ∧ ((r.getD 1 0) &&& 0x9F) &&& 0x01 = 0

/-- All-success environment whose status responses read as non-busy. -/
def quietEnv : Env := ⟨fun _ => some [0x00, 0x00], fun _ => true⟩

/-- Environment whose SPI transfers always fail and whose chip-select pin
succeeds only on its first operation. -/
def c1Env : Env := ⟨fun _ => none, fun n => n == 0⟩

/-- Environment reporting a status byte with WEL set. -/
def c3Env : Env := ⟨fun _ => some [0x00, 0x02], fun _ => true⟩

lemma land_mask3 (b : Nat) : (b &&& 0x9F) &&& 0x03 = b &&& 0x03 := by
  rw [Nat.land_assoc, (by decide : (0x9F &&& 0x03 : Nat) = 0x03)]

/-- C1 (amended): when the chip-select-low succeeded and the SPI transfer
fails, the chip-select-high is still attempted; the Spi error is returned
when that attempt succeeds, but when it also fails its Gpio error takes
precedence over the transfer error. -/
theorem command_spi_fail_cs_high_attempted (env : Env) (frame : List Nat)
    (k : Cnt) (hlow : env.csOk k.csN = true) (hspi : env.spiResp k.spiN = none) :
    Flash.command env frame k =
      (⟨k.spiN + 1, k.csN + 2⟩,
        [Ev.csLow true, Ev.xfer frame none, Ev.csHigh (env.csOk (k.csN + 1))],
        if env.csOk (k.csN + 1) then Outcome.err SErr.Spi
        else Outcome.err SErr.Gpio) := by
  cases hh : env.csOk (k.csN + 1) <;>
    simp [Flash.command, spi_command, setLow, setHigh, transfer, obind, hlow,
      hspi, hh]

/-- C1 witness: a concrete run where chip-select-low succeeds, the transfer
fails, and the chip-select-high also fails. -/
theorem command_spi_fail_cs_high_attempted_witness :
    Flash.command c1Env [0x06] ⟨0, 0⟩ =
      (⟨1, 2⟩, [Ev.csLow true, Ev.xfer [0x06] none, Ev.csHigh false],
        Outcome.err SErr.Gpio) := by
  simpa [c1Env] using
    command_spi_fail_cs_high_attempted c1Env [0x06] ⟨0, 0⟩ rfl rfl

/-- C1 counterexample: with a failed transfer followed by a failed
chip-select-high, the returned error is the Gpio error, not the transfer
error claimed by the specification. -/
theorem command_spi_fail_counterexample :
    (Flash.command c1Env [0x06] ⟨0, 0⟩).2.2 = Outcome.err SErr.Gpio ∧
    (Flash.command c1Env [0x06] ⟨0, 0⟩).2.2 ≠ Outcome.err SErr.Spi := by
  constructor <;> decide

/-- C3: when the first ReadStatus transaction succeeds with response `r`,
`init` performs exactly that single transaction and fails with
`UnexpectedStatus` precisely when BUSY (bit 0) or WEL (bit 1) of the status
byte is set, succeeding otherwise. -/
theorem init_unexpected_status (env : Env) (r : List Nat)
    (h0 : env.csOk 0 = true) (h1 : env.csOk 1 = true)
    (hr : env.spiResp 0 = some r) :
    Flash.init env ⟨0, 0⟩ =
      (⟨1, 2⟩, [Ev.csLow true, Ev.xfer [0x05, 0x00] (some r), Ev.csHigh true],
        if (r.getD 1 0) &&& 0x03 ≠ 0 then Outcome.err SErr.UnexpectedStatus
        else Outcome.ok ()) := by
  simp [Flash.init, Flash.read_status, Flash.command, spi_command, setLow,
    setHigh, transfer, obind, h0, h1, hr, land_mask3]
  split <;> simp_all

/-- C3 witness: a chip whose status register reports WEL makes `init` fail
with `UnexpectedStatus` after the single ReadStatus transaction. -/
theorem init_unexpected_status_witness :
    Flash.init c3Env ⟨0, 0⟩ =
      (⟨1, 2⟩,
        [Ev.csLow true, Ev.xfer [0x05, 0x00] (some [0x00, 0x02]), Ev.csHigh true],
        Outcome.err SErr.UnexpectedStatus) := by
  have h := init_unexpected_status c3Env [0x00, 0x02] rfl rfl rfl
  rw [if_pos (by decide)] at h
  exact h

lemma getD_append_left (l1 l2 : List Nat) (n : Nat) (h : n < l1.length) :
    (l1 ++ l2).getD n 0 = l1.getD n 0 := by
  simp [List.getD_eq_getElem?_getD, List.getElem?_append, h]

lemma getD_append_shift (l1 l2 : List Nat) (n : Nat) (h : l1.length ≤ n) :
    (l1 ++ l2).getD n 0 = l2.getD (n - l1.length) 0 := by
  rw [List.getD_eq_getElem?_getD, List.getD_eq_getElem?_getD,
    List.getElem?_append, if_neg (by omega)]

lemma getD_replicate (k j a : Nat) (h : j < k) :
    (List.replicate k a).getD j 0 = a := by
  simp [List.getD_eq_getElem?_getD, List.getElem?_replicate, h]

/-- Characterization of the scan loop: starting at index `i` with `b`
iterations left, if index `m` lies in the scanned window, all bytes before
it (from `i` on) are 0x7F and the byte at `m` is not, then the loop stops
exactly at `m`. -/
lemma scanFrom_found (buf : List Nat) :
    ∀ b i m, i ≤ m → m - i < b →
      (∀ j, i ≤ j → j < m → buf.getD j 0 = 0x7F) →
      buf.getD m 0 ≠ 0x7F → scanFrom buf b i = m := by
  intro b
  induction b with
  | zero => intro i m _ h2 _ _; omega
  | succ b ih =>
    intro i m h1 h2 hall hm
    by_cases he : i = m
    · subst he
      simp only [scanFrom]
      rw [if_pos hm]
    · have hlt : i < m := by omega
      have h7 : buf.getD i 0 = 0x7F := hall i le_rfl hlt
      simp only [scanFrom]
      rw [if_neg (not_not_intro h7)]
      exact ih (i + 1) m (by omega) (by omega)
        (fun j hj1 hj2 => hall j (by omega) hj2) hm

/-- The scan result stays inside the window (or is the default 0). -/
lemma scanFrom_lt (buf : List Nat) :
    ∀ b i, 0 < b → scanFrom buf b i < i + b := by
  intro b
  induction b with
  | zero => intro i h; omega
  | succ b ih =>
    intro i _
    by_cases h7 : buf.getD i 0 ≠ 0x7F
    · simp only [scanFrom]
      rw [if_pos h7]
      omega
    · simp only [scanFrom]
      rw [if_neg h7]
      cases b with
      | zero => simp only [scanFrom]; omega
      | succ b2 =>
        have := ih (i + 1) (by omega)
        omega

/-- C4 (amended): on an input of `b` leading 0x7F bytes followed by at
least three bytes that are not 0x7F, the parser returns the three bytes
after the prefix, and a continuation count equal to the prefix length
reduced modulo 256 (the count is stored in a `u8`). -/
theorem from_jedec_id_continuation (b : Nat) (t : List Nat)
    (h3 : 3 ≤ t.length) (h7 : ∀ i, i < 3 → t.getD i 0 ≠ 0x7F) :
    (Identification.from_jedec_id (List.replicate b 0x7F ++ t)).continuation_count
        = b % 256 ∧
    (Identification.from_jedec_id (List.replicate b 0x7F ++ t)).mfr_code
        = t.getD 0 0 ∧
    (Identification.from_jedec_id (List.replicate b 0x7F ++ t)).device_id
        = [t.getD 1 0, t.getD 2 0] := by
  have hlen : (List.replicate b 0x7F ++ t).length = b + t.length := by
    simp
  have hscan : scanFrom (List.replicate b 0x7F ++ t)
      ((List.replicate b 0x7F ++ t).length - 2) 0 = b := by
    apply scanFrom_found
    · omega
    · omega
    · intro j _ hj
      rw [getD_append_left _ _ _ (by simpa using hj)]
      exact getD_replicate b j 0x7F hj
    · rw [getD_append_shift _ _ _ (by simp)]
      simpa using h7 0 (by omega)
  have hb0 : (List.replicate b 0x7F ++ t).getD b 0 = t.getD 0 0 := by
    rw [getD_append_shift _ _ _ (by simp)]; simp
  have hb1 : (List.replicate b 0x7F ++ t).getD (b + 1) 0 = t.getD 1 0 := by
    rw [getD_append_shift _ _ _ (by simp)]; simp
  have hb2 : (List.replicate b 0x7F ++ t).getD (b + 2) 0 = t.getD 2 0 := by
    rw [getD_append_shift _ _ _ (by simp)]; simp
  rw [hlen] at hscan
  refine ⟨?_, ?_, ?_⟩
  · simp only [Identification.from_jedec_id, Identification.continuation_count,
      hlen, hscan]
  · simp only [Identification.from_jedec_id, Identification.mfr_code, hlen,
      hscan, List.headD_cons]
    exact hb0
  · simp only [Identification.from_jedec_id, Identification.device_id, hlen,
      hscan, List.drop_succ_cons, List.drop_zero]
    rw [hb1, hb2]

set_option maxRecDepth 10000 in
/-- C4 witness: the Cypress FM25V02A response with six continuation bytes. -/
theorem from_jedec_id_continuation_witness :
    (Identification.from_jedec_id
        (List.replicate 6 0x7F ++ [0xC2, 0x22, 0x08])).continuation_count = 6 ∧
    (Identification.from_jedec_id
        (List.replicate 6 0x7F ++ [0xC2, 0x22, 0x08])).mfr_code = 0xC2 ∧
    (Identification.from_jedec_id
        (List.replicate 6 0x7F ++ [0xC2, 0x22, 0x08])).device_id = [0x22, 0x08] := by
  have h := from_jedec_id_continuation 6 [0xC2, 0x22, 0x08] (by decide)
    (by intro i hi; interval_cases i <;> decide)
  simpa using h

set_option maxRecDepth 100000 in
/-- C4 counterexample: with 256 leading continuation bytes the stored `u8`
count wraps to 0, refuting the unqualified equality with the prefix
length. -/
theorem from_jedec_id_continuation_counterexample :
    (Identification.from_jedec_id
        (List.replicate 256 0x7F ++ [0xC2, 0x22, 0x08])).continuation_count
      ≠ 256 := by
  have hscan : scanFrom (List.replicate 256 0x7F ++ [0xC2, 0x22, 0x08])
      ((List.replicate 256 0x7F ++ [0xC2, 0x22, 0x08]).length - 2) 0 = 256 := by
    apply scanFrom_found
    · omega
    · simp
    · intro j _ hj
      rw [getD_append_left _ _ _ (by simpa using hj)]
      exact getD_replicate 256 j 0x7F hj
    · rw [getD_append_shift _ _ _ (by simp)]
      decide
  simp only [Identification.from_jedec_id, Identification.continuation_count,
    hscan]
  decide

/-- C5: when the chip-select-low succeeds, `read` emits exactly one
chip-select bracket whose first transfer is the `[0x03, hi, mid, lo]`
header and whose second transfer, present exactly when the header transfer
succeeded, exchanges the destination buffer. -/
theorem read_single_bracket (env : Env) (addr : Nat) (buf : List Nat)
    (k : Cnt) (hlow : env.csOk k.csN = true) :
    (Flash.read env addr buf k).2.1 =
      [Ev.csLow true, Ev.xfer (addrCmd 0x03 addr) (env.spiResp k.spiN)] ++
        (if (env.spiResp k.spiN).isSome then
          [Ev.xfer buf (env.spiResp (k.spiN + 1))] else []) ++
        [Ev.csHigh (env.csOk (k.csN + 1))] := by
  cases hr : env.spiResp k.spiN <;>
    cases hh : env.csOk (k.csN + 1) <;>
      simp [Flash.read, setLow, setHigh, transfer, obind, Outcome.toUnit,
        hlow, hr, hh]

/-- C5 witness: a concrete read of three bytes at address 0x010203 under the
all-success environment. -/
theorem read_single_bracket_witness :
    (Flash.read quietEnv 0x010203 [0, 0, 0] ⟨0, 0⟩).2.1 =
      [Ev.csLow true, Ev.xfer [0x03, 0x01, 0x02, 0x03] (some [0x00, 0x00]),
        Ev.xfer [0, 0, 0] (some [0x00, 0x00]), Ev.csHigh true] := by
  have h := read_single_bracket quietEnv 0x010203 [0, 0, 0] ⟨0, 0⟩ rfl
  simpa [quietEnv, addrCmd] using h

/-- C10: the parser is total exactly on buffers of length at least 3: there
every access is in bounds and the checked embedding agrees with the total
one, while on shorter buffers the Rust function aborts. -/
theorem from_jedec_id_partiality (buf : List Nat) :
    (3 ≤ buf.length →
      Identification.from_jedec_id_checked buf
        = some (Identification.from_jedec_id buf)) ∧
    (buf.length < 3 → Identification.from_jedec_id_checked buf = none) := by
  constructor
  · intro h3
    have hk : scanFrom buf (buf.length - 2) 0 < buf.length - 2 := by
      have := scanFrom_lt buf (buf.length - 2) 0 (by omega)
      omega
    have e0 : buf.get? (scanFrom buf (buf.length - 2) 0)
        = some (buf.getD (scanFrom buf (buf.length - 2) 0) 0) := by
      rw [List.get?_eq_getElem?, List.getElem?_eq_getElem (by omega),
        List.getD_eq_getElem buf 0 (by omega)]
    have e1 : buf.get? (scanFrom buf (buf.length - 2) 0 + 1)
        = some (buf.getD (scanFrom buf (buf.length - 2) 0 + 1) 0) := by
      rw [List.get?_eq_getElem?, List.getElem?_eq_getElem (by omega),
        List.getD_eq_getElem buf 0 (by omega)]
    have e2 : buf.get? (scanFrom buf (buf.length - 2) 0 + 2)
        = some (buf.getD (scanFrom buf (buf.length - 2) 0 + 2) 0) := by
      rw [List.get?_eq_getElem?, List.getElem?_eq_getElem (by omega),
        List.getD_eq_getElem buf 0 (by omega)]
    simp only [Identification.from_jedec_id_checked]
    rw [if_neg (by omega)]
    rw [e0, e1, e2]
    simp [Identification.from_jedec_id]
  · intro h3
    by_cases h2 : buf.length < 2
    · simp [Identification.from_jedec_id_checked, h2]
    · have hl : buf.length = 2 := by omega
      cases buf with
      | nil => simp at hl
      | cons a l =>
        cases l with
        | nil => simp at hl
        | cons b l2 =>
          cases l2 with
          | cons c l3 => simp at hl
          | nil => simp [Identification.from_jedec_id_checked, scanFrom]

/-- C10 witness: a 3-byte buffer parses totally; a 2-byte buffer aborts. -/
theorem from_jedec_id_partiality_witness :
    Identification.from_jedec_id_checked [0xC2, 0x22, 0x08]
        = some (Identification.from_jedec_id [0xC2, 0x22, 0x08]) ∧
    Identification.from_jedec_id_checked [0x7F, 0x7F] = none := by
  exact ⟨(from_jedec_id_partiality [0xC2, 0x22, 0x08]).1 (by decide),
    (from_jedec_id_partiality [0x7F, 0x7F]).2 (by decide)⟩

lemma spi_command_quiet (env : Env) (resp : Nat → List Nat)
    (hr : ∀ n, env.spiResp n = some (resp n)) (hcs : ∀ n, env.csOk n = true)
    (f : List Nat) (k : Cnt) :
    spi_command env f k =
      (⟨k.spiN + 1, k.csN + 2⟩,
        [Ev.csLow true, Ev.xfer f (some (resp k.spiN)), Ev.csHigh true],
        Outcome.ok (resp k.spiN)) := by
  simp [spi_command, setLow, setHigh, transfer, obind, hr, hcs]

lemma write_enable_quiet (env : Env) (resp : Nat → List Nat)
    (hr : ∀ n, env.spiResp n = some (resp n)) (hcs : ∀ n, env.csOk n = true)
    (k : Cnt) :
    Flash.write_enable env k =
      (⟨k.spiN + 1, k.csN + 2⟩,
        [Ev.csLow true, Ev.xfer [0x06] (some (resp k.spiN)), Ev.csHigh true],
        Outcome.ok ()) := by
  simp [Flash.write_enable, Flash.command, obind,
    spi_command_quiet env resp hr hcs]

lemma read_status_quiet (env : Env) (resp : Nat → List Nat)
    (hr : ∀ n, env.spiResp n = some (resp n)) (hcs : ∀ n, env.csOk n = true)
    (k : Cnt) :
    Flash.read_status env k =
      (⟨k.spiN + 1, k.csN + 2⟩,
        [Ev.csLow true, Ev.xfer [0x05, 0x00] (some (resp k.spiN)), Ev.csHigh true],
        Outcome.ok (((resp k.spiN).getD 1 0) &&& 0x9F)) := by
  simp [Flash.read_status, Flash.command, obind,
    spi_command_quiet env resp hr hcs]

lemma busy_bit_mod (x : Nat) : (x &&& 0x9F) &&& 0x01 = x % 2 := by
  rw [Nat.land_assoc, (by decide : (0x9F &&& 0x01 : Nat) = 0x01),
    Nat.and_one_is_mod]

lemma wait_done_quiet (env : Env) (resp : Nat → List Nat)
    (hr : ∀ n, env.spiResp n = some (resp n)) (hcs : ∀ n, env.csOk n = true)
    (hbusy : ∀ n, (((resp n).getD 1 0) &&& 0x9F) &&& 0x01 = 0)
    (m : Nat) (k : Cnt) :
    Flash.wait_done env (m + 1) k =
      (⟨k.spiN + 1, k.csN + 2⟩,
        [Ev.csLow true, Ev.xfer [0x05, 0x00] (some (resp k.spiN)), Ev.csHigh true],
        Outcome.ok ()) := by
  have hb2 : ∀ n, (resp n)[1]?.getD 0 % 2 = 0 := by
    intro n
    have := hbusy n
    rw [busy_bit_mod] at this
    simpa [List.getD_eq_getElem?_getD] using this
  simp [Flash.wait_done, read_status_quiet env resp hr hcs, obind, hb2]

lemma prog_bracket_quiet (env : Env) (resp : Nat → List Nat)
    (hr : ∀ n, env.spiResp n = some (resp n)) (hcs : ∀ n, env.csOk n = true)
    (cur : Nat) (chunk : List Nat) (k : Cnt) :
    Flash.prog_bracket env cur chunk k =
      (⟨k.spiN + 2, k.csN + 2⟩,
        [Ev.csLow true, Ev.xfer (addrCmd 0x02 cur) (some (resp k.spiN)),
          Ev.xfer chunk (some (resp (k.spiN + 1))), Ev.csHigh true],
        Outcome.ok ()) := by
  simp [Flash.prog_bracket, setLow, setHigh, transfer, obind, Outcome.toUnit,
    hr, hcs]

lemma erase_step_quiet (env : Env) (resp : Nat → List Nat)
    (hr : ∀ n, env.spiResp n = some (resp n)) (hcs : ∀ n, env.csOk n = true)
    (hbusy : ∀ n, (((resp n).getD 1 0) &&& 0x9F) &&& 0x01 = 0)
    (m addr c : Nat) (k : Cnt) (hov : addr + c * 256 < 4294967296) :
    Flash.erase_step env (m + 1) addr c k =
      (⟨k.spiN + 3, k.csN + 6⟩,
        [Ev.csLow true, Ev.xfer [0x06] (some (resp k.spiN)), Ev.csHigh true,
          Ev.csLow true,
          Ev.xfer (addrCmd 0x20 (addr + c * 256)) (some (resp (k.spiN + 1))),
          Ev.csHigh true,
          Ev.csLow true, Ev.xfer [0x05, 0x00] (some (resp (k.spiN + 2))),
          Ev.csHigh true],
        Outcome.ok ()) := by
  simp [Flash.erase_step, write_enable_quiet env resp hr hcs, obind, hov,
    Flash.command, spi_command_quiet env resp hr hcs,
    wait_done_quiet env resp hr hcs hbusy]

lemma erase_go_quiet (env : Env) (resp : Nat → List Nat)
    (hr : ∀ n, env.spiResp n = some (resp n)) (hcs : ∀ n, env.csOk n = true)
    (hbusy : ∀ n, (((resp n).getD 1 0) &&& 0x9F) &&& 0x01 = 0)
    (m addr : Nat) :
    ∀ n c k, (∀ j, j < n → addr + (c + j) * 256 < 4294967296) →
      (Flash.erase_sectors_go env (m + 1) addr n c k).2.2 = Outcome.ok () ∧
      ((Flash.erase_sectors_go env (m + 1) addr n c k).2.1).map evSig
        = eraseSig addr n c := by
  intro n
  induction n with
  | zero => intro c k _; simp [Flash.erase_sectors_go, eraseSig]
  | succ n ih =>
    intro c k hov
    have hstep := erase_step_quiet env resp hr hcs hbusy m addr c k
      (by have := hov 0 (by omega); simpa using this)
    have hrec := ih (c + 1) ⟨k.spiN + 3, k.csN + 6⟩
      (fun j hj => by have := hov (j + 1) (by omega); omega)
    rcases hgo : Flash.erase_sectors_go env (m + 1) addr n (c + 1)
        ⟨k.spiN + 3, k.csN + 6⟩ with ⟨k2, t2, o2⟩
    rw [hgo] at hrec
    simp only [Flash.erase_sectors_go, hstep, hgo]
    constructor
    · exact hrec.1
    · simp [eraseSig, eraseIterSig, bracketSig, evSig]
      exact hrec.2

/-- C7 (amended): under an environment where every transfer succeeds, every
chip-select operation succeeds and every status response reads non-busy,
and provided `addr + count * 256` does not exceed 2^32 (the internal `u32`
address conversion panics otherwise), `erase_sectors` performs exactly
`count` iterations, each being a WriteEnable transaction, one CS-bracketed
`[0x20, hi, mid, lo]` exchange at `cur = addr + c * 256` (stride 256, not
4 KiB), and one status poll that reads BUSY clear. -/
theorem erase_sectors_frames (env : Env) (resp : Nat → List Nat)
    (hr : ∀ n, env.spiResp n = some (resp n)) (hcs : ∀ n, env.csOk n = true)
    (hbusy : ∀ n, (((resp n).getD 1 0) &&& 0x9F) &&& 0x01 = 0)
    (fuel addr count : Nat) (k : Cnt) (hf : 0 < fuel)
    (hov : addr + count * 256 ≤ 4294967296) :
    (Flash.erase_sectors env fuel addr count k).2.2 = Outcome.ok () ∧
    ((Flash.erase_sectors env fuel addr count k).2.1).map evSig
      = eraseSig addr count 0 := by
  obtain ⟨m, rfl⟩ : ∃ m, fuel = m + 1 := ⟨fuel - 1, by omega⟩
  simpa [Flash.erase_sectors] using
    erase_go_quiet env resp hr hcs hbusy m addr count 0 k (fun j hj => by omega)

/-- C7 witness: erasing one sector at 0x010000 produces the wire log
`[0x06]`, `[0x20, 0x01, 0x00, 0x00]`, `[0x05, 0x00]`, each CS-bracketed. -/
theorem erase_sectors_frames_witness :
    (Flash.erase_sectors quietEnv 1 0x010000 1 ⟨0, 0⟩).2.2 = Outcome.ok () ∧
    ((Flash.erase_sectors quietEnv 1 0x010000 1 ⟨0, 0⟩).2.1).map evSig
      = [Ev.csLow true, Ev.xfer [0x06] none, Ev.csHigh true,
          Ev.csLow true, Ev.xfer [0x20, 0x01, 0x00, 0x00] none, Ev.csHigh true,
          Ev.csLow true, Ev.xfer [0x05, 0x00] none, Ev.csHigh true] := by
  have hb : ∀ n : Nat,
      ((((fun _ : Nat => ([0x00, 0x00] : List Nat)) n).getD 1 0) &&& 0x9F)
        &&& 0x01 = 0 := by
    intro n
    show ((([0x00, 0x00] : List Nat).getD 1 0) &&& 0x9F) &&& 0x01 = 0
    decide
  have h := erase_sectors_frames quietEnv (fun _ => [0x00, 0x00])
    (fun n => rfl) (fun n => rfl) hb 1 0x010000 1 ⟨0, 0⟩
    (by omega) (by omega)
  refine ⟨h.1, ?_⟩
  rw [h.2]
  simp [eraseSig, eraseIterSig, bracketSig, addrCmd]

set_option maxRecDepth 10000 in
/-- C7 counterexample: at `addr = 0xFFFFFF00` with `count = 2` the second
iteration panics in the `u32` address conversion, so only one sector-erase
frame is emitted instead of the claimed two. -/
theorem erase_sectors_overflow_counterexample :
    (Flash.erase_sectors quietEnv 1 4294967040 2 ⟨0, 0⟩).2.2
        = Outcome.panicked ∧
    (frames ((Flash.erase_sectors quietEnv 1 4294967040 2 ⟨0, 0⟩).2.1)).countP
        (fun f => f.headD 0 == 0x20) = 1 := by
  constructor <;> decide

lemma write_go_quiet (env : Env) (resp : Nat → List Nat)
    (hr : ∀ n, env.spiResp n = some (resp n)) (hcs : ∀ n, env.csOk n = true)
    (hbusy : ∀ n, (((resp n).getD 1 0) &&& 0x9F) &&& 0x01 = 0)
    (m addr : Nat) (data : List Nat) :
    ∀ n c k, (∀ j, j < n → addr + (c + j) * 256 < 4294967296) →
      (Flash.write_bytes_go env (m + 1) addr data n c k).2.2 = Outcome.ok () ∧
      ((Flash.write_bytes_go env (m + 1) addr data n c k).2.1).map evSig
        = writeSig addr data n c := by
  intro n
  induction n with
  | zero => intro c k _; simp [Flash.write_bytes_go, writeSig]
  | succ n ih =>
    intro c k hov
    have hov0 : addr + c * 256 < 4294967296 := by
      have := hov 0 (by omega); omega
    have hwe := write_enable_quiet env resp hr hcs k
    have hpb := prog_bracket_quiet env resp hr hcs (addr + c * 256)
      ((data.drop (c * 256)).take 256) ⟨k.spiN + 1, k.csN + 2⟩
    have hwd := wait_done_quiet env resp hr hcs hbusy m
      ⟨k.spiN + 3, k.csN + 4⟩
    have hrec := ih (c + 1) ⟨k.spiN + 4, k.csN + 6⟩
      (fun j hj => by have := hov (j + 1) (by omega); omega)
    rcases hgo : Flash.write_bytes_go env (m + 1) addr data n (c + 1)
        ⟨k.spiN + 4, k.csN + 6⟩ with ⟨k2, t2, o2⟩
    rw [hgo] at hrec
    simp only [Flash.write_bytes_go, hwe, hpb, hwd, obind, hov0, if_pos, hgo]
    constructor
    · exact hrec.1
    · simp [writeSig, pageIterSig, bracketSig, evSig]
      exact hrec.2

/-- C6 (amended): under an environment where every transfer succeeds, every
chip-select operation succeeds and every status response reads non-busy,
and provided `addr + data.length` does not exceed 2^32 (the internal `u32`
address conversion panics otherwise), `write_bytes` performs exactly
`⌈data.length / 256⌉` page-program iterations; iteration `c` is a
WriteEnable transaction, one CS bracket streaming
`[0x02, hi, mid, lo]` of `cur = addr + c * 256` followed by chunk
`data[c*256 .. c*256+256]`, and one status poll reading BUSY clear. -/
theorem write_bytes_frames (env : Env) (resp : Nat → List Nat)
    (hr : ∀ n, env.spiResp n = some (resp n)) (hcs : ∀ n, env.csOk n = true)
    (hbusy : ∀ n, (((resp n).getD 1 0) &&& 0x9F) &&& 0x01 = 0)
    (fuel addr : Nat) (data : List Nat) (k : Cnt) (hf : 0 < fuel)
    (hov : addr + data.length ≤ 4294967296) :
    (Flash.write_bytes env fuel addr data k).2.2 = Outcome.ok () ∧
    ((Flash.write_bytes env fuel addr data k).2.1).map evSig
      = writeSig addr data ((data.length + 255) / 256) 0 := by
  obtain ⟨m, rfl⟩ : ∃ m, fuel = m + 1 := ⟨fuel - 1, by omega⟩
  simpa [Flash.write_bytes] using
    write_go_quiet env resp hr hcs hbusy m addr data
      ((data.length + 255) / 256) 0 k (fun j hj => by omega)

set_option maxRecDepth 10000 in
/-- C6 witness: writing 300 bytes at address 0 produces two page-program
iterations, the first streaming 256 bytes at address 0 and the second the
remaining 44 bytes at address 0x000100. -/
theorem write_bytes_frames_witness :
    (Flash.write_bytes quietEnv 1 0 (List.replicate 300 0xAA) ⟨0, 0⟩).2.2
        = Outcome.ok () ∧
    ((Flash.write_bytes quietEnv 1 0 (List.replicate 300 0xAA) ⟨0, 0⟩).2.1).map
        evSig
      = [Ev.csLow true, Ev.xfer [0x06] none, Ev.csHigh true,
          Ev.csLow true, Ev.xfer [0x02, 0x00, 0x00, 0x00] none,
          Ev.xfer (List.replicate 256 0xAA) none, Ev.csHigh true,
          Ev.csLow true, Ev.xfer [0x05, 0x00] none, Ev.csHigh true,
          Ev.csLow true, Ev.xfer [0x06] none, Ev.csHigh true,
          Ev.csLow true, Ev.xfer [0x02, 0x00, 0x01, 0x00] none,
          Ev.xfer (List.replicate 44 0xAA) none, Ev.csHigh true,
          Ev.csLow true, Ev.xfer [0x05, 0x00] none, Ev.csHigh true] := by
  have hb : ∀ n : Nat,
      ((((fun _ : Nat => ([0x00, 0x00] : List Nat)) n).getD 1 0) &&& 0x9F)
        &&& 0x01 = 0 := by
    intro n
    show ((([0x00, 0x00] : List Nat).getD 1 0) &&& 0x9F) &&& 0x01 = 0
    decide
  have h := write_bytes_frames quietEnv (fun _ => [0x00, 0x00])
    (fun n => rfl) (fun n => rfl) hb 1 0
    (List.replicate 300 0xAA) ⟨0, 0⟩ (by omega) (by simp)
  refine ⟨h.1, ?_⟩
  rw [h.2]
  simp [writeSig, pageIterSig, bracketSig, addrCmd, List.take_replicate,
    List.drop_replicate]

set_option maxRecDepth 100000 in
/-- C6 counterexample: at `addr = 0xFFFFFFFF` with 257 bytes of data the
second iteration panics in the `u32` address conversion, so only one
page-program frame is emitted instead of the claimed ⌈257/256⌉ = 2. -/
theorem write_bytes_overflow_counterexample :
    (Flash.write_bytes quietEnv 1 4294967295 (List.replicate 257 0x00)
        ⟨0, 0⟩).2.2 = Outcome.panicked ∧
    (frames ((Flash.write_bytes quietEnv 1 4294967295 (List.replicate 257 0x00)
        ⟨0, 0⟩).2.1)).countP (fun f => f.headD 0 == 0x02) = 1 := by
  constructor <;> decide

/-- Well-bracketed traces built from complete transaction segments: a failed
chip-select-low edge, a one-transfer bracket, or a two-transfer bracket (the
second transfer is bracket payload, not a command).  The parameter `s`
constrains the transaction-opening frames. -/
inductive GoodTr (s : List Nat → Prop) : List Ev → Prop where
  | nil : GoodTr s []
  | lowFail (t : List Ev) : GoodTr s t → GoodTr s (Ev.csLow false :: t)
  | single (f : List Nat) (r : Option (List Nat)) (ok2 : Bool) (t : List Ev) :
      s f → GoodTr s t →
      GoodTr s (Ev.csLow true :: Ev.xfer f r :: Ev.csHigh ok2 :: t)
  | double (f : List Nat) (r : Option (List Nat)) (g : List Nat)
      (r2 : Option (List Nat)) (ok2 : Bool) (t : List Ev) :
      s f → GoodTr s t →
      GoodTr s (Ev.csLow true :: Ev.xfer f r :: Ev.xfer g r2 ::
        Ev.csHigh ok2 :: t)

lemma GoodTr.append {s : List Nat → Prop} {a b : List Ev}
    (ha : GoodTr s a) (hb : GoodTr s b) : GoodTr s (a ++ b) := by
  induction ha with
  | nil => simpa using hb
  | lowFail t ht ih => exact GoodTr.lowFail _ ih
  | single f r ok2 t hf ht ih => exact GoodTr.single f r ok2 _ hf ih
  | double f r g r2 ok2 t hf ht ih => exact GoodTr.double f r g r2 ok2 _ hf ih

lemma GoodTr.closed {s : List Nat → Prop} {t : List Ev} (h : GoodTr s t) :
    allClosed t = true := by
  induction h with
  | nil => rfl
  | lowFail t ht ih => simpa [allClosed] using ih
  | single f r ok2 t hf ht ih => simp [allClosed, IsHigh, ih]
  | double f r g r2 ok2 t hf ht ih => simp [allClosed, IsHigh, ih]

lemma GoodTr.head {s : List Nat → Prop} {t : List Ev} (h : GoodTr s t) :
    t = [] ∨ ∃ ok2 t2, t = Ev.csLow ok2 :: t2 := by
  cases h with
  | nil => exact Or.inl rfl
  | lowFail t ht => exact Or.inr ⟨false, t, rfl⟩
  | single f r ok2 t hf ht => exact Or.inr ⟨true, _, rfl⟩
  | double f r g r2 ok2 t hf ht => exact Or.inr ⟨true, _, rfl⟩

lemma GoodTr.txn {s : List Nat → Prop} {t : List Ev} (h : GoodTr s t) :
    ∀ f ∈ txnFrames t, s f := by
  induction h with
  | nil => simp [txnFrames]
  | lowFail t ht ih =>
    rcases ht.head with he | ⟨ok2, t2, he⟩ <;> subst he
    · simp [txnFrames]
    · simpa [txnFrames] using ih
  | single f r ok2 t hf ht ih =>
    intro g hg
    simp only [txnFrames, List.mem_cons] at hg
    rcases hg with rfl | hg
    · exact hf
    · exact ih g hg
  | double f r g r2 ok2 t hf ht ih =>
    intro g2 hg
    simp only [txnFrames, List.mem_cons] at hg
    rcases hg with rfl | hg
    · exact hf
    · exact ih g2 hg

lemma goodtr_spi_command (s : List Nat → Prop) (env : Env) (f : List Nat)
    (k : Cnt) (hs : s f) : GoodTr s (spi_command env f k).2.1 := by
  by_cases hL : env.csOk k.csN
  · simp [spi_command, setLow, setHigh, transfer, obind, hL]
    exact GoodTr.single f _ _ [] hs GoodTr.nil
  · simp [spi_command, setLow, setHigh, transfer, obind,
      eq_false_of_ne_true hL]
    exact GoodTr.lowFail [] GoodTr.nil

lemma goodtr_command (s : List Nat → Prop) (env : Env) (f : List Nat)
    (k : Cnt) (hs : s f) : GoodTr s (Flash.command env f k).2.1 :=
  goodtr_spi_command s env f k hs

lemma goodtr_read_status (s : List Nat → Prop) (env : Env) (k : Cnt)
    (hs : s [0x05, 0x00]) : GoodTr s (Flash.read_status env k).2.1 := by
  have hg := goodtr_command s env [0x05, 0x00] k hs
  rcases hc : Flash.command env [0x05, 0x00] k with ⟨k1, t1, o1⟩
  rw [hc] at hg
  cases o1 <;> simp [Flash.read_status, obind, hc] <;> exact hg

lemma goodtr_write_enable (s : List Nat → Prop) (env : Env) (k : Cnt)
    (hs : s [0x06]) : GoodTr s (Flash.write_enable env k).2.1 := by
  have hg := goodtr_command s env [0x06] k hs
  rcases hc : Flash.command env [0x06] k with ⟨k1, t1, o1⟩
  rw [hc] at hg
  cases o1 <;> simp [Flash.write_enable, obind, hc] <;> exact hg

lemma goodtr_wait_done (s : List Nat → Prop) (env : Env)
    (hs : s [0x05, 0x00]) :
    ∀ fuel k, GoodTr s (Flash.wait_done env fuel k).2.1 := by
  intro fuel
  induction fuel with
  | zero => intro k; exact GoodTr.nil
  | succ n ih =>
    intro k
    have hg := goodtr_read_status s env k hs
    rcases hrs : Flash.read_status env k with ⟨k1, t1, o1⟩
    rw [hrs] at hg
    cases o1 with
    | ok st =>
      by_cases hb : st % 2 = 1
      · simpa [Flash.wait_done, obind, hrs, Nat.and_one_is_mod, hb] using
          hg.append (ih k1)
      · simpa [Flash.wait_done, obind, hrs, Nat.and_one_is_mod, hb] using hg
    | err e => simpa [Flash.wait_done, obind, hrs] using hg
    | panicked => simpa [Flash.wait_done, obind, hrs] using hg
    | fuelOut => simpa [Flash.wait_done, obind, hrs] using hg

lemma goodtr_read (s : List Nat → Prop) (env : Env) (addr : Nat)
    (buf : List Nat) (k : Cnt) (hs : s (addrCmd 0x03 addr)) :
    GoodTr s (Flash.read env addr buf k).2.1 := by
  by_cases hL : env.csOk k.csN
  · cases hr : env.spiResp k.spiN with
    | some r =>
      simp [Flash.read, setLow, setHigh, transfer, obind, hL, hr]
      exact GoodTr.double _ _ _ _ _ [] hs GoodTr.nil
    | none =>
      simp [Flash.read, setLow, setHigh, transfer, obind, hL, hr]
      exact GoodTr.single _ _ _ [] hs GoodTr.nil
  · simp [Flash.read, setLow, setHigh, transfer, obind,
      eq_false_of_ne_true hL]
    exact GoodTr.lowFail [] GoodTr.nil

lemma goodtr_prog_bracket (s : List Nat → Prop) (env : Env) (cur : Nat)
    (chunk : List Nat) (k : Cnt) (hs : s (addrCmd 0x02 cur)) :
    GoodTr s (Flash.prog_bracket env cur chunk k).2.1 := by
  by_cases hL : env.csOk k.csN
  · cases hr : env.spiResp k.spiN with
    | some r =>
      simp [Flash.prog_bracket, setLow, setHigh, transfer, obind, hL, hr]
      exact GoodTr.double _ _ _ _ _ [] hs GoodTr.nil
    | none =>
      simp [Flash.prog_bracket, setLow, setHigh, transfer, obind, hL, hr]
      exact GoodTr.single _ _ _ [] hs GoodTr.nil
  · simp [Flash.prog_bracket, setLow, setHigh, transfer, obind,
      eq_false_of_ne_true hL]
    exact GoodTr.lowFail [] GoodTr.nil

lemma goodtr_erase_step (s : List Nat → Prop) (env : Env)
    (fuel addr c : Nat) (k : Cnt) (hs6 : s [0x06]) (hs5 : s [0x05, 0x00])
    (hs20 : ∀ cur, s (addrCmd 0x20 cur)) :
    GoodTr s (Flash.erase_step env fuel addr c k).2.1 := by
  have hwe := goodtr_write_enable s env k hs6
  rcases he : Flash.write_enable env k with ⟨k1, t1, o1⟩
  rw [he] at hwe
  cases o1 with
  | ok a =>
    by_cases hov : addr + c * 256 < 4294967296
    · have hc := goodtr_command s env (addrCmd 0x20 (addr + c * 256)) k1
        (hs20 _)
      rcases hcc : Flash.command env (addrCmd 0x20 (addr + c * 256)) k1
        with ⟨k2, t2, o2⟩
      rw [hcc] at hc
      cases o2 with
      | ok b =>
        have hwd := goodtr_wait_done s env hs5 fuel k2
        simpa [Flash.erase_step, obind, he, hov, hcc] using
          hwe.append (hc.append hwd)
      | err e => simpa [Flash.erase_step, obind, he, hov, hcc] using
          hwe.append hc
      | panicked => simpa [Flash.erase_step, obind, he, hov, hcc] using
          hwe.append hc
      | fuelOut => simpa [Flash.erase_step, obind, he, hov, hcc] using
          hwe.append hc
    · simpa [Flash.erase_step, obind, he, hov] using hwe
  | err e => simpa [Flash.erase_step, obind, he] using hwe
  | panicked => simpa [Flash.erase_step, obind, he] using hwe
  | fuelOut => simpa [Flash.erase_step, obind, he] using hwe

lemma goodtr_erase_go (s : List Nat → Prop) (env : Env) (fuel addr : Nat)
    (hs6 : s [0x06]) (hs5 : s [0x05, 0x00])
    (hs20 : ∀ cur, s (addrCmd 0x20 cur)) :
    ∀ n c k, GoodTr s (Flash.erase_sectors_go env fuel addr n c k).2.1 := by
  intro n
  induction n with
  | zero => intro c k; exact GoodTr.nil
  | succ n ih =>
    intro c k
    have hst := goodtr_erase_step s env fuel addr c k hs6 hs5 hs20
    rcases he : Flash.erase_step env fuel addr c k with ⟨k1, t1, o1⟩
    rw [he] at hst
    cases o1 with
    | ok a =>
      rcases hgo : Flash.erase_sectors_go env fuel addr n (c + 1) k1
        with ⟨k2, t2, o2⟩
      have hr2 := ih (c + 1) k1
      rw [hgo] at hr2
      simpa [Flash.erase_sectors_go, he, hgo] using hst.append hr2
    | err e => simpa [Flash.erase_sectors_go, he] using hst
    | panicked => simpa [Flash.erase_sectors_go, he] using hst
    | fuelOut => simpa [Flash.erase_sectors_go, he] using hst

lemma goodtr_erase_all (s : List Nat → Prop) (env : Env) (fuel : Nat)
    (k : Cnt) (hs6 : s [0x06]) (hs5 : s [0x05, 0x00]) (hs7 : s [0xC7]) :
    GoodTr s (Flash.erase_all env fuel k).2.1 := by
  have hwe := goodtr_write_enable s env k hs6
  rcases he : Flash.write_enable env k with ⟨k1, t1, o1⟩
  rw [he] at hwe
  cases o1 with
  | ok a =>
    have hc := goodtr_command s env [0xC7] k1 hs7
    rcases hcc : Flash.command env [0xC7] k1 with ⟨k2, t2, o2⟩
    rw [hcc] at hc
    cases o2 with
    | ok b =>
      have hwd := goodtr_wait_done s env hs5 fuel k2
      simpa [Flash.erase_all, obind, he, hcc] using
        hwe.append (hc.append hwd)
    | err e => simpa [Flash.erase_all, obind, he, hcc] using hwe.append hc
    | panicked => simpa [Flash.erase_all, obind, he, hcc] using hwe.append hc
    | fuelOut => simpa [Flash.erase_all, obind, he, hcc] using hwe.append hc
  | err e => simpa [Flash.erase_all, obind, he] using hwe
  | panicked => simpa [Flash.erase_all, obind, he] using hwe
  | fuelOut => simpa [Flash.erase_all, obind, he] using hwe

lemma goodtr_write_go (s : List Nat → Prop) (env : Env) (fuel addr : Nat)
    (data : List Nat) (hs6 : s [0x06]) (hs5 : s [0x05, 0x00])
    (hs2 : ∀ cur, s (addrCmd 0x02 cur)) :
    ∀ n c k, GoodTr s (Flash.write_bytes_go env fuel addr data n c k).2.1 := by
  intro n
  induction n with
  | zero => intro c k; exact GoodTr.nil
  | succ n ih =>
    intro c k
    have hstep : GoodTr s ((obind (Flash.write_enable env k) fun _ k1 =>
        if addr + c * 256 < 4294967296 then
          obind
            (Flash.prog_bracket env (addr + c * 256)
              ((data.drop (c * 256)).take 256) k1)
            fun _ k2 => Flash.wait_done env fuel k2
        else (k1, [], Outcome.panicked)).2.1) := by
      have hwe := goodtr_write_enable s env k hs6
      rcases he : Flash.write_enable env k with ⟨k1, t1, o1⟩
      rw [he] at hwe
      cases o1 with
      | ok a =>
        by_cases hov : addr + c * 256 < 4294967296
        · have hpb := goodtr_prog_bracket s env (addr + c * 256)
            ((data.drop (c * 256)).take 256) k1 (hs2 _)
          rcases hpp : Flash.prog_bracket env (addr + c * 256)
              ((data.drop (c * 256)).take 256) k1 with ⟨k2, t2, o2⟩
          rw [hpp] at hpb
          cases o2 with
          | ok b =>
            have hwd := goodtr_wait_done s env hs5 fuel k2
            simpa [obind, hov, hpp] using hwe.append (hpb.append hwd)
          | err e => simpa [obind, hov, hpp] using hwe.append hpb
          | panicked => simpa [obind, hov, hpp] using hwe.append hpb
          | fuelOut => simpa [obind, hov, hpp] using hwe.append hpb
        · simpa [obind, hov] using hwe
      | err e => simpa [obind] using hwe
      | panicked => simpa [obind] using hwe
      | fuelOut => simpa [obind] using hwe
    rcases hX : (obind (Flash.write_enable env k) fun _ k1 =>
        if addr + c * 256 < 4294967296 then
          obind
            (Flash.prog_bracket env (addr + c * 256)
              ((data.drop (c * 256)).take 256) k1)
            fun _ k2 => Flash.wait_done env fuel k2
        else (k1, [], Outcome.panicked)) with ⟨k9, t9, o9⟩
    rw [hX] at hstep
    cases o9 with
    | ok a =>
      rcases hgo : Flash.write_bytes_go env fuel addr data n (c + 1) k9
        with ⟨k2, t2, o2⟩
      have hrec := ih (c + 1) k9
      rw [hgo] at hrec
      simpa [Flash.write_bytes_go, hX, hgo] using hstep.append hrec
    | err e => simpa [Flash.write_bytes_go, hX] using hstep
    | panicked => simpa [Flash.write_bytes_go, hX] using hstep
    | fuelOut => simpa [Flash.write_bytes_go, hX] using hstep

/-- Environment whose chip-select pin always fails. -/
def c2Env : Env := ⟨fun _ => some [0x00, 0x00], fun _ => false⟩

/-- C2: in every driver transaction a successful chip-select-low is followed
by a chip-select-high attempt before the call returns, on every exit path
(including transfer failures and panics); a failed chip-select-low is
reported immediately as a Gpio error, with no transfer and no
chip-select-high attempt. -/
theorem cs_discipline :
    (∀ env f k, allClosed (Flash.command env f k).2.1 = true) ∧
    (∀ env addr buf k, allClosed (Flash.read env addr buf k).2.1 = true) ∧
    (∀ env fuel addr data k,
      allClosed (Flash.write_bytes env fuel addr data k).2.1 = true) ∧
    (∀ env f k, env.csOk k.csN = false →
      Flash.command env f k
        = (⟨k.spiN, k.csN + 1⟩, [Ev.csLow false], Outcome.err SErr.Gpio)) := by
  refine ⟨?_, ?_, ?_, ?_⟩
  · intro env f k
    exact (goodtr_command (fun _ => True) env f k trivial).closed
  · intro env addr buf k
    exact (goodtr_read (fun _ => True) env addr buf k trivial).closed
  · intro env fuel addr data k
    simpa [Flash.write_bytes] using
      (goodtr_write_go (fun _ => True) env fuel addr data trivial trivial
        (fun _ => trivial) ((data.length + 255) / 256) 0 k).closed
  · intro env f k h
    simp [Flash.command, spi_command, setLow, obind, h]

/-- C2 witness: concrete instances of each conjunct, the last one showing
the immediate Gpio report when chip-select-low fails. -/
theorem cs_discipline_witness :
    allClosed (Flash.command quietEnv [0x06] ⟨0, 0⟩).2.1 = true ∧
    allClosed (Flash.read quietEnv 3 [0x00] ⟨0, 0⟩).2.1 = true ∧
    allClosed (Flash.write_bytes quietEnv 1 0 [0xAA] ⟨0, 0⟩).2.1 = true ∧
    Flash.command c2Env [0x09] ⟨0, 0⟩
      = (⟨0, 1⟩, [Ev.csLow false], Outcome.err SErr.Gpio) :=
  ⟨cs_discipline.1 quietEnv [0x06] ⟨0, 0⟩,
    cs_discipline.2.1 quietEnv 3 [0x00] ⟨0, 0⟩,
    cs_discipline.2.2.1 quietEnv 1 0 [0xAA] ⟨0, 0⟩,
    cs_discipline.2.2.2 c2Env [0x09] ⟨0, 0⟩ rfl⟩

/-- C9: `switch_die` from the Die0 state emits exactly one CS-bracketed
`[0xC2, 0x01]` transaction followed only by the traffic of the Die1
constructor, and on success returns the Die1-state wrapper holding the die
built by that constructor from the pair recovered via `free`; symmetrically
from Die1 with `[0xC2, 0x00]`.  Forwarded operations dispatch to the active
inner die and add no traffic of their own, and no series25 driver operation
opens a transaction with the 0xC2 die-select opcode. -/
theorem switch_die_exclusive :
    (∀ (T C D0 D1 : Type) (free0 : D0 → T × C)
        (new1 : T → C → Env → Cnt → Cnt × List Ev × Outcome D1)
        (d : D0) (env : Env) (k : Cnt) (r : List Nat) (k2 : Cnt)
        (tn : List Ev) (d1 : D1),
      env.csOk k.csN = true → env.csOk (k.csN + 1) = true →
      env.spiResp k.spiN = some r →
      new1 (free0 d).1 (free0 d).2 env ⟨k.spiN + 1, k.csN + 2⟩
          = (k2, tn, Outcome.ok d1) →
      W25M.switch_die0 free0 new1 ⟨Inner.die0 d⟩ env k
        = (k2,
            Ev.csLow true :: Ev.xfer [0xC2, 0x01] (some r) :: Ev.csHigh true
              :: tn,
            Outcome.ok ⟨Inner.die1 d1⟩)) ∧
    (∀ (T C D0 D1 : Type) (free1 : D1 → T × C)
        (new0 : T → C → Env → Cnt → Cnt × List Ev × Outcome D0)
        (d : D1) (env : Env) (k : Cnt) (r : List Nat) (k2 : Cnt)
        (tn : List Ev) (d0 : D0),
      env.csOk k.csN = true → env.csOk (k.csN + 1) = true →
      env.spiResp k.spiN = some r →
      new0 (free1 d).1 (free1 d).2 env ⟨k.spiN + 1, k.csN + 2⟩
          = (k2, tn, Outcome.ok d0) →
      W25M.switch_die1 free1 new0 ⟨Inner.die1 d⟩ env k
        = (k2,
            Ev.csLow true :: Ev.xfer [0xC2, 0x00] (some r) :: Ev.csHigh true
              :: tn,
            Outcome.ok ⟨Inner.die0 d0⟩)) ∧
    (∀ (D0 D1 α : Type) (op0 : D0 → Cnt → Cnt × List Ev × Outcome α)
        (op1 : D1 → Cnt → Cnt × List Ev × Outcome α) (d : D0) (k : Cnt),
      W25M.dispatch op0 op1 ⟨Inner.die0 d⟩ k = op0 d k) ∧
    (∀ (D0 D1 α : Type) (op0 : D0 → Cnt → Cnt × List Ev × Outcome α)
        (op1 : D1 → Cnt → Cnt × List Ev × Outcome α) (d : D1) (k : Cnt),
      W25M.dispatch op0 op1 ⟨Inner.die1 d⟩ k = op1 d k) ∧
    (∀ env addr buf k f, f ∈ txnFrames (Flash.read env addr buf k).2.1 →
      f.headD 0 ≠ 0xC2) ∧
    (∀ env fuel addr data k f,
      f ∈ txnFrames (Flash.write_bytes env fuel addr data k).2.1 →
      f.headD 0 ≠ 0xC2) ∧
    (∀ env fuel addr count k f,
      f ∈ txnFrames (Flash.erase_sectors env fuel addr count k).2.1 →
      f.headD 0 ≠ 0xC2) ∧
    (∀ env fuel k f, f ∈ txnFrames (Flash.erase_all env fuel k).2.1 →
      f.headD 0 ≠ 0xC2) := by
  refine ⟨?_, ?_, ?_, ?_, ?_, ?_, ?_, ?_⟩
  · intro T C D0 D1 free0 new1 d env k r k2 tn d1 h0 h1 hr hnew
    simp [W25M.switch_die0, W25M.command, spi_command, setLow, setHigh,
      transfer, obind, h0, h1, hr, hnew]
  · intro T C D0 D1 free1 new0 d env k r k2 tn d0 h0 h1 hr hnew
    simp [W25M.switch_die1, W25M.command, spi_command, setLow, setHigh,
      transfer, obind, h0, h1, hr, hnew]
  · intro D0 D1 α op0 op1 d k; rfl
  · intro D0 D1 α op0 op1 d k; rfl
  · intro env addr buf k f hf
    exact (goodtr_read (fun g => g.headD 0 ≠ 0xC2) env addr buf k
      (by simp [addrCmd])).txn f hf
  · intro env fuel addr data k f hf
    refine (goodtr_write_go (fun g => g.headD 0 ≠ 0xC2) env fuel addr data
      (by decide) (by decide) (fun cur => by simp [addrCmd])
      ((data.length + 255) / 256) 0 k).txn f ?_
    simpa [Flash.write_bytes] using hf
  · intro env fuel addr count k f hf
    exact (goodtr_erase_go (fun g => g.headD 0 ≠ 0xC2) env fuel addr
      (by decide) (by decide) (fun cur => by simp [addrCmd]) count 0 k).txn f
      (by simpa [Flash.erase_sectors] using hf)
  · intro env fuel k f hf
    exact (goodtr_erase_all (fun g => g.headD 0 ≠ 0xC2) env fuel k
      (by decide) (by decide) (by decide)).txn f hf

/-- C9 witness: a concrete die switch in each direction with a unit die
whose constructor emits no traffic, and a concrete transaction-frame check
on a series25 read. -/
theorem switch_die_exclusive_witness :
    W25M.switch_die0 (fun _ : Unit => ((), ()))
        (fun _ _ _ k => (k, [], Outcome.ok ())) ⟨Inner.die0 ()⟩ quietEnv
        ⟨0, 0⟩
      = (⟨1, 2⟩,
          [Ev.csLow true, Ev.xfer [0xC2, 0x01] (some [0x00, 0x00]),
            Ev.csHigh true],
          Outcome.ok ⟨Inner.die1 ()⟩) ∧
    W25M.switch_die1 (fun _ : Unit => ((), ()))
        (fun _ _ _ k => (k, [], Outcome.ok ())) ⟨Inner.die1 ()⟩ quietEnv
        ⟨0, 0⟩
      = (⟨1, 2⟩,
          [Ev.csLow true, Ev.xfer [0xC2, 0x00] (some [0x00, 0x00]),
            Ev.csHigh true],
          Outcome.ok ⟨Inner.die0 ()⟩) ∧
    ([0x03, 0x00, 0x00, 0x00] : List Nat).headD 0 ≠ 0xC2 := by
  refine ⟨?_, ?_, ?_⟩
  · have h := switch_die_exclusive.1 Unit Unit Unit Unit (fun _ => ((), ()))
      (fun _ _ _ k => (k, [], Outcome.ok ())) () quietEnv ⟨0, 0⟩
      [0x00, 0x00] ⟨1, 2⟩ [] () rfl rfl rfl rfl
    simpa using h
  · have h := switch_die_exclusive.2.1 Unit Unit Unit Unit
      (fun _ => ((), ())) (fun _ _ _ k => (k, [], Outcome.ok ())) () quietEnv
      ⟨0, 0⟩ [0x00, 0x00] ⟨1, 2⟩ [] () rfl rfl rfl rfl
    simpa using h
  · exact switch_die_exclusive.2.2.2.2.1 quietEnv 0 [] ⟨0, 0⟩
      [0x03, 0x00, 0x00, 0x00] (by decide)

lemma endsClearPoll_append (a t : List Ev) (h : endsClearPoll t) :
    endsClearPoll (a ++ t) := by
  obtain ⟨t0, r, hteq, hr⟩ := h
  exact ⟨a ++ t0, r, by rw [hteq, List.append_assoc], hr⟩

lemma spi_command_ok_trace (env : Env) (f : List Nat) (k k1 : Cnt)
    (t1 : List Ev) (r : List Nat)
    (h : spi_command env f k = (k1, t1, Outcome.ok r)) :
    t1 = [Ev.csLow true, Ev.xfer f (some r), Ev.csHigh true] := by
  by_cases hL : env.csOk k.csN
  · cases hR : env.spiResp k.spiN with
    | some resp =>
      by_cases hH : env.csOk (k.csN + 1)
      · simp [spi_command, setLow, setHigh, transfer, obind, hL, hR, hH,
          Prod.ext_iff] at h
        obtain ⟨h1, h2, h3⟩ := h
        subst h3
        exact h2.symm
      · simp [spi_command, setLow, setHigh, transfer, obind, hL, hR, hH,
          Prod.ext_iff] at h
    | none =>
      by_cases hH : env.csOk (k.csN + 1) <;>
        simp [spi_command, setLow, setHigh, transfer, obind, hL, hR, hH,
          Prod.ext_iff] at h
  · simp [spi_command, setLow, obind, eq_false_of_ne_true hL,
      Prod.ext_iff] at h

lemma read_status_ok_trace (env : Env) (k k1 : Cnt) (t1 : List Ev) (st : Nat)
    (h : Flash.read_status env k = (k1, t1, Outcome.ok st)) :
    ∃ rr, t1 = [Ev.csLow true, Ev.xfer [0x05, 0x00] (some rr), Ev.csHigh true]
      ∧ st = (rr.getD 1 0) &&& 0x9F := by
  rcases hc : Flash.command env [0x05, 0x00] k with ⟨kc, tc, oc⟩
  cases oc with
  | ok r =>
    have ht := spi_command_ok_trace env [0x05, 0x00] k kc tc r hc
    simp [Flash.read_status, obind, hc, Prod.ext_iff] at h
    obtain ⟨h1, h2, h3⟩ := h
    refine ⟨r, ?_, ?_⟩
    · rw [← h2]; simpa using ht
    · rw [List.getD_eq_getElem?_getD]; exact h3.symm
  | err e => simp [Flash.read_status, obind, hc, Prod.ext_iff] at h
  | panicked => simp [Flash.read_status, obind, hc, Prod.ext_iff] at h
  | fuelOut => simp [Flash.read_status, obind, hc, Prod.ext_iff] at h

lemma wait_done_ok_ends (env : Env) :
    ∀ fuel k k1 t1,
      Flash.wait_done env fuel k = (k1, t1, Outcome.ok ()) →
      endsClearPoll t1 := by
  intro fuel
  induction fuel with
  | zero =>
    intro k k1 t1 h
    simp [Flash.wait_done, Prod.ext_iff] at h
  | succ n ih =>
    intro k k1 t1 h
    rcases hrs : Flash.read_status env k with ⟨kr, tr, or⟩
    cases or with
    | ok st =>
      obtain ⟨rr, htr, hst⟩ := read_status_ok_trace env k kr tr st hrs
      by_cases hb : st % 2 = 1
      · rcases hwd : Flash.wait_done env n kr with ⟨kd, td, od⟩
        simp [Flash.wait_done, obind, hrs, Nat.and_one_is_mod, hb, hwd,
          Prod.ext_iff] at h
        obtain ⟨-, ht1, hod⟩ := h
        subst ht1
        exact endsClearPoll_append tr td (ih kr kd td (by rw [hwd, hod]))
      · simp [Flash.wait_done, obind, hrs, Nat.and_one_is_mod, hb,
          Prod.ext_iff] at h
        refine ⟨[], rr, by rw [← h.2]; simpa using htr, ?_⟩
        subst hst
        rw [Nat.and_one_is_mod]
        omega
    | err e => simp [Flash.wait_done, obind, hrs, Prod.ext_iff] at h
    | panicked => simp [Flash.wait_done, obind, hrs, Prod.ext_iff] at h
    | fuelOut => simp [Flash.wait_done, obind, hrs, Prod.ext_iff] at h

lemma erase_step_ok_ends (env : Env) (fuel addr c : Nat) (k k1 : Cnt)
    (t1 : List Ev)
    (h : Flash.erase_step env fuel addr c k = (k1, t1, Outcome.ok ())) :
    endsClearPoll t1 := by
  rcases hwe : Flash.write_enable env k with ⟨kw, tw, ow⟩
  cases ow with
  | ok a =>
    by_cases hov : addr + c * 256 < 4294967296
    · rcases hc : Flash.command env (addrCmd 0x20 (addr + c * 256)) kw
        with ⟨kc, tc, oc⟩
      cases oc with
      | ok b =>
        rcases hwd : Flash.wait_done env fuel kc with ⟨kd, td, od⟩
        simp [Flash.erase_step, obind, hwe, hov, hc, hwd, Prod.ext_iff] at h
        obtain ⟨-, ht1, hod⟩ := h
        subst ht1
        rw [← List.append_assoc]
        exact endsClearPoll_append (tw ++ tc) td
          (wait_done_ok_ends env fuel kc kd td (by rw [hwd, hod]))
      | err e => simp [Flash.erase_step, obind, hwe, hov, hc, Prod.ext_iff] at h
      | panicked =>
        simp [Flash.erase_step, obind, hwe, hov, hc, Prod.ext_iff] at h
      | fuelOut =>
        simp [Flash.erase_step, obind, hwe, hov, hc, Prod.ext_iff] at h
    · simp [Flash.erase_step, obind, hwe, hov, Prod.ext_iff] at h
  | err e => simp [Flash.erase_step, obind, hwe, Prod.ext_iff] at h
  | panicked => simp [Flash.erase_step, obind, hwe, Prod.ext_iff] at h
  | fuelOut => simp [Flash.erase_step, obind, hwe, Prod.ext_iff] at h

lemma erase_go_ok_ends (env : Env) (fuel addr : Nat) :
    ∀ n c k k1 t1, 1 ≤ n →
      Flash.erase_sectors_go env fuel addr n c k = (k1, t1, Outcome.ok ()) →
      endsClearPoll t1 := by
  intro n
  induction n with
  | zero => intro c k k1 t1 hn; omega
  | succ n ih =>
    intro c k k1 t1 _ h
    rcases hst : Flash.erase_step env fuel addr c k with ⟨ks, ts, os⟩
    cases os with
    | ok a =>
      rcases hgo : Flash.erase_sectors_go env fuel addr n (c + 1) ks
        with ⟨kg, tg, og⟩
      simp [Flash.erase_sectors_go, hst, hgo, Prod.ext_iff] at h
      obtain ⟨-, ht1, hog⟩ := h
      subst ht1
      cases n with
      | zero =>
        have : ks = kg ∧ tg = [] ∧ Outcome.ok () = og := by
          simpa [Flash.erase_sectors_go, Prod.ext_iff] using hgo
        rw [this.2.1]
        simpa using erase_step_ok_ends env fuel addr c k ks ts hst
      | succ m =>
        exact endsClearPoll_append ts tg
          (ih (c + 1) ks kg tg (by omega) (by rw [hgo, hog]))
    | err e => simp [Flash.erase_sectors_go, hst, Prod.ext_iff] at h
    | panicked => simp [Flash.erase_sectors_go, hst, Prod.ext_iff] at h
    | fuelOut => simp [Flash.erase_sectors_go, hst, Prod.ext_iff] at h

lemma write_step_ok_ends (env : Env) (fuel addr c : Nat) (data : List Nat)
    (k k9 : Cnt) (t9 : List Ev)
    (h : (obind (Flash.write_enable env k) fun _ k1 =>
        if addr + c * 256 < 4294967296 then
          obind
            (Flash.prog_bracket env (addr + c * 256)
              ((data.drop (c * 256)).take 256) k1)
            fun _ k2 => Flash.wait_done env fuel k2
        else (k1, [], Outcome.panicked)) = (k9, t9, Outcome.ok ())) :
    endsClearPoll t9 := by
  rcases hwe : Flash.write_enable env k with ⟨kw, tw, ow⟩
  cases ow with
  | ok a =>
    by_cases hov : addr + c * 256 < 4294967296
    · rcases hpb : Flash.prog_bracket env (addr + c * 256)
          ((data.drop (c * 256)).take 256) kw with ⟨kp, tp, op⟩
      cases op with
      | ok b =>
        rcases hwd : Flash.wait_done env fuel kp with ⟨kd, td, od⟩
        simp [obind, hwe, hov, hpb, hwd, Prod.ext_iff] at h
        obtain ⟨-, ht1, hod⟩ := h
        subst ht1
        rw [← List.append_assoc]
        exact endsClearPoll_append (tw ++ tp) td
          (wait_done_ok_ends env fuel kp kd td (by rw [hwd, hod]))
      | err e => simp [obind, hwe, hov, hpb, Prod.ext_iff] at h
      | panicked => simp [obind, hwe, hov, hpb, Prod.ext_iff] at h
      | fuelOut => simp [obind, hwe, hov, hpb, Prod.ext_iff] at h
    · simp [obind, hwe, hov, Prod.ext_iff] at h
  | err e => simp [obind, hwe, Prod.ext_iff] at h
  | panicked => simp [obind, hwe, Prod.ext_iff] at h
  | fuelOut => simp [obind, hwe, Prod.ext_iff] at h

lemma write_go_ok_ends (env : Env) (fuel addr : Nat) (data : List Nat) :
    ∀ n c k k1 t1, 1 ≤ n →
      Flash.write_bytes_go env fuel addr data n c k = (k1, t1, Outcome.ok ()) →
      endsClearPoll t1 := by
  intro n
  induction n with
  | zero => intro c k k1 t1 hn; omega
  | succ n ih =>
    intro c k k1 t1 _ h
    rcases hX : (obind (Flash.write_enable env k) fun _ k1 =>
        if addr + c * 256 < 4294967296 then
          obind
            (Flash.prog_bracket env (addr + c * 256)
              ((data.drop (c * 256)).take 256) k1)
            fun _ k2 => Flash.wait_done env fuel k2
        else (k1, [], Outcome.panicked)) with ⟨ks, ts, os⟩
    cases os with
    | ok a =>
      rcases hgo : Flash.write_bytes_go env fuel addr data n (c + 1) ks
        with ⟨kg, tg, og⟩
      simp [Flash.write_bytes_go, hX, hgo, Prod.ext_iff] at h
      obtain ⟨-, ht1, hog⟩ := h
      subst ht1
      cases n with
      | zero =>
        have : ks = kg ∧ tg = [] ∧ Outcome.ok () = og := by
          simpa [Flash.write_bytes_go, Prod.ext_iff] using hgo
        rw [this.2.1]
        simpa using write_step_ok_ends env fuel addr c data k ks ts hX
      | succ m =>
        exact endsClearPoll_append ts tg
          (ih (c + 1) ks kg tg (by omega) (by rw [hgo, hog]))
    | err e => simp [Flash.write_bytes_go, hX, Prod.ext_iff] at h
    | panicked => simp [Flash.write_bytes_go, hX, Prod.ext_iff] at h
    | fuelOut => simp [Flash.write_bytes_go, hX, Prod.ext_iff] at h

/-- C8: every operation that waits on BUSY returns Ok only when its emitted
trace ends with a complete status-poll bracket whose response has the BUSY
bit clear: the most recent successful status read shows BUSY = 0, and
control is never returned while BUSY is set. -/
theorem busy_wait_returns_clear :
    (∀ env fuel k k1 t1,
      Flash.wait_done env fuel k = (k1, t1, Outcome.ok ()) →
      endsClearPoll t1) ∧
    (∀ env fuel addr count k k1 t1, 1 ≤ count →
      Flash.erase_sectors env fuel addr count k = (k1, t1, Outcome.ok ()) →
      endsClearPoll t1) ∧
    (∀ env fuel k k1 t1,
      Flash.erase_all env fuel k = (k1, t1, Outcome.ok ()) →
      endsClearPoll t1) ∧
    (∀ env fuel addr data k k1 t1, data ≠ [] →
      Flash.write_bytes env fuel addr data k = (k1, t1, Outcome.ok ()) →
      endsClearPoll t1) := by
  refine ⟨?_, ?_, ?_, ?_⟩
  · intro env fuel k k1 t1 h
    exact wait_done_ok_ends env fuel k k1 t1 h
  · intro env fuel addr count k k1 t1 hn h
    exact erase_go_ok_ends env fuel addr count 0 k k1 t1 hn
      (by simpa [Flash.erase_sectors] using h)
  · intro env fuel k k1 t1 h
    rcases hwe : Flash.write_enable env k with ⟨kw, tw, ow⟩
    cases ow with
    | ok a =>
      rcases hc : Flash.command env [0xC7] kw with ⟨kc, tc, oc⟩
      cases oc with
      | ok b =>
        rcases hwd : Flash.wait_done env fuel kc with ⟨kd, td, od⟩
        simp [Flash.erase_all, obind, hwe, hc, hwd, Prod.ext_iff] at h
        obtain ⟨-, ht1, hod⟩ := h
        subst ht1
        rw [← List.append_assoc]
        exact endsClearPoll_append (tw ++ tc) td
          (wait_done_ok_ends env fuel kc kd td (by rw [hwd, hod]))
      | err e => simp [Flash.erase_all, obind, hwe, hc, Prod.ext_iff] at h
      | panicked => simp [Flash.erase_all, obind, hwe, hc, Prod.ext_iff] at h
      | fuelOut => simp [Flash.erase_all, obind, hwe, hc, Prod.ext_iff] at h
    | err e => simp [Flash.erase_all, obind, hwe, Prod.ext_iff] at h
    | panicked => simp [Flash.erase_all, obind, hwe, Prod.ext_iff] at h
    | fuelOut => simp [Flash.erase_all, obind, hwe, Prod.ext_iff] at h
  · intro env fuel addr data k k1 t1 hd h
    refine write_go_ok_ends env fuel addr data ((data.length + 255) / 256) 0
      k k1 t1 ?_ (by simpa [Flash.write_bytes] using h)
    have : 1 ≤ data.length := by
      cases data with
      | nil => exact absurd rfl hd
      | cons a l => simp
    omega

/-- C8 witness: concrete all-success runs of each operation, whose traces
end with a BUSY-clear status poll. -/
theorem busy_wait_returns_clear_witness :
    endsClearPoll (Flash.wait_done quietEnv 1 ⟨0, 0⟩).2.1 ∧
    endsClearPoll (Flash.erase_sectors quietEnv 1 0 1 ⟨0, 0⟩).2.1 ∧
    endsClearPoll (Flash.erase_all quietEnv 1 ⟨0, 0⟩).2.1 ∧
    endsClearPoll (Flash.write_bytes quietEnv 1 0 [0xAA] ⟨0, 0⟩).2.1 := by
  refine ⟨?_, ?_, ?_, ?_⟩
  · exact busy_wait_returns_clear.1 quietEnv 1 ⟨0, 0⟩
      (Flash.wait_done quietEnv 1 ⟨0, 0⟩).1
      (Flash.wait_done quietEnv 1 ⟨0, 0⟩).2.1 (by decide)
  · exact busy_wait_returns_clear.2.1 quietEnv 1 0 1 ⟨0, 0⟩
      (Flash.erase_sectors quietEnv 1 0 1 ⟨0, 0⟩).1
      (Flash.erase_sectors quietEnv 1 0 1 ⟨0, 0⟩).2.1 (by omega) (by decide)
  · exact busy_wait_returns_clear.2.2.1 quietEnv 1 ⟨0, 0⟩
      (Flash.erase_all quietEnv 1 ⟨0, 0⟩).1
      (Flash.erase_all quietEnv 1 ⟨0, 0⟩).2.1 (by decide)
  · exact busy_wait_returns_clear.2.2.2 quietEnv 1 0 [0xAA] ⟨0, 0⟩
      (Flash.write_bytes quietEnv 1 0 [0xAA] ⟨0, 0⟩).1
      (Flash.write_bytes quietEnv 1 0 [0xAA] ⟨0, 0⟩).2.1 (by decide)
      (by decide)

end SpiMem
